import Mathlib

/-!
# Verification of the trade repository's core numeric and orchestration logic

Shallow embedding of the Rust sources (`src/executor.rs`, `src/main.rs`,
`src/types.rs`) of the multi-agent trading system.  Numeric values that the
Rust code holds in `f64` are embedded as exact rationals `ℚ`; the machine
epsilon constant `f64::EPSILON = 2⁻⁵²` is carried over literally.  Network
calls, LLM providers and the async runtime are embedded by passing their
observed results explicitly as arguments, and stateful code by explicit
state passing.

The file is organised as: definitions (in source order), then helper
lemmas, then the theorems about the specification's claims.
-/

namespace Trade

/-! ## Constraint Engine (`executor.rs`) -/

/-- `executor::SymbolConstraints` (executor.rs lines 19-26). -/
structure SymbolConstraints where
  step_size : ℚ
  min_qty : ℚ
  max_qty : Option ℚ
  min_notional : ℚ
  tick_size : ℚ
deriving DecidableEq, Repr

/-- `executor::quantize_down` (executor.rs lines 207-213):
floor to a multiple of `step`, clamped to be nonnegative; identity when
`step <= 0`. -/
def quantize_down (value step : ℚ) : ℚ :=
  if step ≤ 0 then value
  else max ((⌊value / step⌋ : ℚ) * step) 0

/-- `executor::quantize_up` (executor.rs lines 215-221): ceiling variant. -/
def quantize_up (value step : ℚ) : ℚ :=
  if step ≤ 0 then value
  else max ((⌈value / step⌉ : ℚ) * step) 0

/-- Rust `f64::round` rounds half away from zero. -/
def round_half_away (q : ℚ) : ℤ :=
  if 0 ≤ q then ⌊q + 1/2⌋ else ⌈q - 1/2⌉

/-- `executor::quantize_price` (executor.rs lines 223-229): nearest multiple
of the tick, clamped to be nonnegative; identity when `tick_size <= 0`. -/
def quantize_price (price tick_size : ℚ) : ℚ :=
  if tick_size ≤ 0 then price
  else max ((round_half_away (price / tick_size) : ℚ) * tick_size) 0

/-! ## Order Sizing Resolver (`main::adjust_trade_quantity`, main.rs lines 32-105)

The Rust function mutates a local `qty` through a fixed sequence of steps;
each contiguous block of the function is embedded as one named function and
`adjust_trade_quantity` is their composition in source order. -/

/-- `f64::EPSILON` = 2⁻⁵², carried over exactly. -/
def f64_epsilon : ℚ := 1 / 2 ^ 52

/-- main.rs lines 43-49: `effective_max` starts at `allocated_max` and is
capped by `allocated_balance / price` when that limit is positive. -/
def effective_max_limit (allocated_max allocated_balance price : ℚ) : ℚ :=
  if allocated_balance > 0 ∧ price > 0 then
    if allocated_balance / price > 0 then
      min allocated_max (allocated_balance / price)
    else allocated_max
  else allocated_max

/-- main.rs lines 51-54: start from `max desired 0`; a zero desired quantity
defaults to `max min_qty step_size`. -/
def initial_qty (desired : ℚ) (c : SymbolConstraints) : ℚ :=
  if max desired 0 = 0 then max c.min_qty c.step_size else max desired 0

/-- main.rs lines 56-58: clamp above by a ceiling. -/
def clamp_above (qty cap : ℚ) : ℚ :=
  if qty > cap then cap else qty

/-- main.rs lines 62-64: raise an undersized quantity to the quantized
minimum. -/
def raise_to_min_qty (qty : ℚ) (c : SymbolConstraints) : ℚ :=
  if qty < c.min_qty then quantize_up c.min_qty c.step_size else qty

/-- main.rs lines 66-70 and 84-88: lower an oversized quantity to the
quantized `max_qty` ceiling, when one is set. -/
def cap_max_qty (qty : ℚ) (c : SymbolConstraints) : ℚ :=
  match c.max_qty with
  | some m => if qty > m then quantize_down m c.step_size else qty
  | none => qty

/-- main.rs lines 72-78: raise the quantity so that its notional value can
reach `min_notional`. -/
def raise_to_min_notional (qty price : ℚ) (c : SymbolConstraints) : ℚ :=
  if c.min_notional > 0 ∧ price > 0 then
    if quantize_up (c.min_notional / price) c.step_size > qty then
      quantize_up (c.min_notional / price) c.step_size
    else qty
  else qty

/-- main.rs lines 80-82: re-clamp against `effective_max`, quantizing down. -/
def recap_effective_max (qty effective_max : ℚ) (c : SymbolConstraints) : ℚ :=
  if qty > effective_max then quantize_down effective_max c.step_size else qty

/-- The value of the local `qty` after main.rs lines 51-88. -/
def final_qty (desired allocated_max allocated_balance price : ℚ)
    (c : SymbolConstraints) : ℚ :=
  cap_max_qty
    (recap_effective_max
      (raise_to_min_notional
        (cap_max_qty
          (raise_to_min_qty
            (quantize_down
              (clamp_above (initial_qty desired c)
                (effective_max_limit allocated_max allocated_balance price))
              c.step_size)
            c)
          c)
        price c)
      (effective_max_limit allocated_max allocated_balance price) c)
    c

/-- `main::adjust_trade_quantity` (main.rs lines 32-105). -/
def adjust_trade_quantity (desired allocated_max allocated_balance price : ℚ)
    (c : SymbolConstraints) : Option ℚ :=
  if allocated_max ≤ 0 then none
  else if final_qty desired allocated_max allocated_balance price c < c.min_qty then
    none
  else if c.min_notional > 0 ∧ price > 0 ∧
      final_qty desired allocated_max allocated_balance price c * price + f64_epsilon
        < c.min_notional then
    none
  else if final_qty desired allocated_max allocated_balance price c ≤ 0 then none
  else some (final_qty desired allocated_max allocated_balance price c)

/-! ## Account stream reconnection loop (`executor::account_stream_loop`,
executor.rs lines 379-405) -/

/-- Outcome of one `establish_account_stream` attempt as observed by the
reconnection loop: `ok` is a normal (non-error) stream end, `err` any
stream error or unexpected close. -/
inductive StreamOutcome where
  | ok
  | err
deriving DecidableEq, Repr

/-- executor.rs line 385: the backoff starts at 5 seconds. -/
def initial_backoff : ℕ := 5

/-- One iteration of the `loop` in `account_stream_loop` (executor.rs lines
387-404): given the current backoff (in seconds) and the attempt's outcome,
the number of seconds slept before the next attempt and the next backoff
value.  A normal end sleeps 1 s and resets the backoff to 5 s; an error
sleeps the current backoff and doubles it, capped at 60 s. -/
def stream_loop_step (backoff : ℕ) : StreamOutcome → ℕ × ℕ
  | .ok => (1, 5)
  | .err => (backoff, min (backoff * 2) 60)

/-- Sleep durations of successive reconnection-loop iterations, starting
from a given backoff. -/
def stream_loop_waits : ℕ → List StreamOutcome → List ℕ
  | _, [] => []
  | b, o :: os =>
      (stream_loop_step b o).1 :: stream_loop_waits (stream_loop_step b o).2 os

/-- The backoff value after the loop has processed a sequence of attempt
outcomes. -/
def backoff_after : ℕ → List StreamOutcome → ℕ
  | b, [] => b
  | b, o :: os => backoff_after (stream_loop_step b o).2 os

/-! ## Account State Cache read path (`executor::get_account_info`,
executor.rs lines 335-367) -/

/-- `executor::AccountInfo` (executor.rs lines 28-33). -/
structure AccountInfo where
  totalWalletBalance : String
  availableBalance : String
deriving DecidableEq, Repr

/-- The read path of `executor::get_account_info` (executor.rs lines
335-367), with its environment passed explicitly: `cache` is the value in
the shared watch cell when the reader first borrows it,
`push_within_timeout` the first value (if any) that the background writer
publishes within the reader's 3-second bounded wait, and `rest_result` the
answer of the one-off REST balance query.  The triple returned is the
reader's result, the watch-cell content after the call (the reader never
sends on the channel, so the cell holds the cached value or the writer's
push, and stays empty when the REST fallback is used), and whether the REST
fallback was invoked. -/
def get_account_info (cache : Option AccountInfo)
    (push_within_timeout : Option AccountInfo) (rest_result : AccountInfo) :
    AccountInfo × Option AccountInfo × Bool :=
  match cache with
  | some snapshot => (snapshot, some snapshot, false)
  | none =>
    match push_within_timeout with
    | some snapshot => (snapshot, some snapshot, false)
    | none => (rest_result, none, true)

/-! ## Data model (`types.rs`) -/

/-- `types::PositionSide` (types.rs lines 185-189). -/
inductive PositionSide where
  | long
  | short
deriving DecidableEq, Repr

/-- `types::Position` (types.rs lines 177-183). -/
structure Position where
  side : PositionSide
  amount : ℚ
  entry_price : ℚ
  unrealized_pnl : ℚ
deriving DecidableEq, Repr

/-- `types::Signal` (types.rs lines 40-46). -/
inductive Signal where
  | buy
  | sell
  | hold
deriving DecidableEq, Repr

/-- `types::Confidence` (types.rs lines 48-54). -/
inductive Confidence where
  | high
  | medium
  | low
deriving DecidableEq, Repr

/-- `types::TradingDecision` (types.rs lines 32-38). -/
structure TradingDecision where
  signal : Signal
  reason : String
  confidence : Confidence
  amount : ℚ
deriving DecidableEq, Repr

/-- `types::TradeAction` (types.rs lines 203-210). -/
inductive TradeAction where
  | openLong
  | closeLong
  | openShort
  | closeShort
  | hold
deriving DecidableEq, Repr

/-- `types::TradeResult` (types.rs lines 191-201). -/
structure TradeResult where
  symbol : String
  action : TradeAction
  price : ℚ
  amount : ℚ
  timestamp : ℤ
  reason : String
  pnl : Option ℚ
  order_details : Option String
deriving DecidableEq, Repr

/-- `types::AllocationPriority` (types.rs lines 159-166). -/
inductive AllocationPriority where
  | high
  | medium
  | low
  | skip
deriving DecidableEq, Repr

/-- `types::SymbolAllocation` (types.rs lines 150-157). -/
structure SymbolAllocation where
  symbol : String
  allocated_balance : ℚ
  weight : ℚ
  priority : AllocationPriority
  max_amount_override : Option ℚ
deriving DecidableEq, Repr

/-! ## Position selection (`executor::get_position`, executor.rs lines
242-306) -/

/-- One record of Binance's `positionRisk` response
(`executor::PositionRisk`, executor.rs lines 232-240), with the numeric
strings already parsed to `ℚ`. -/
structure PositionRisk where
  symbol : String
  positionSide : String
  positionAmt : ℚ
  entryPrice : ℚ
  unRealizedProfit : ℚ
deriving DecidableEq, Repr

/-- The candidate `Position` built from one kept record (executor.rs lines
276-293): the side comes from `positionSide`, falling back to the sign of
the amount, and the amount is stored as the absolute value. -/
def position_of_risk (pos : PositionRisk) : Position where
  side :=
    if pos.positionSide = "LONG" then .long
    else if pos.positionSide = "SHORT" then .short
    else if pos.positionAmt > 0 then .long else .short
  amount := |pos.positionAmt|
  entry_price := pos.entryPrice
  unrealized_pnl := pos.unRealizedProfit

/-- The record-selection step of the loop in `executor::get_position`
(executor.rs lines 266-303): records for other symbols and records with
`|positionAmt| < 0.0001` are skipped, and a candidate replaces the best one
so far only when its amount is strictly larger. -/
def consider_position (symbol : String) (best : Option Position)
    (pos : PositionRisk) : Option Position :=
  if pos.symbol ≠ symbol then best
  else if |pos.positionAmt| < 1/10000 then best
  else
    match best with
    | none => some (position_of_risk pos)
    | some existing =>
        if (position_of_risk pos).amount > existing.amount then
          some (position_of_risk pos)
        else best

/-- `executor::get_position` (executor.rs lines 242-306), with the
exchange's parsed response list passed explicitly. -/
def get_position (symbol : String) (positions : List PositionRisk) :
    Option Position :=
  positions.foldl (consider_position symbol) none

/-- A record the selection loop keeps: it is for the requested symbol and
its absolute amount is not below the `0.0001` flatness epsilon. -/
def record_kept (symbol : String) (pos : PositionRisk) : Prop :=
  pos.symbol = symbol ∧ ¬(|pos.positionAmt| < 1/10000)

/-! ## Order execution (`executor::execute_decision`, executor.rs lines
711-875) -/

/-- Side of a MARKET order submitted by `executor::place_order`. -/
inductive OrderSide where
  | buy
  | sell
deriving DecidableEq, Repr

/-- One order submitted to the exchange by `executor::place_order`
(executor.rs lines 637-692). -/
structure Order where
  side : OrderSide
  position_side : PositionSide
  quantity : ℚ
deriving DecidableEq, Repr

/-- `executor::open_long` (executor.rs lines 694-696). -/
def open_long (amount : ℚ) : Order := ⟨.buy, .long, amount⟩

/-- `executor::close_long` (executor.rs lines 698-700). -/
def close_long (amount : ℚ) : Order := ⟨.sell, .long, amount⟩

/-- `executor::open_short` (executor.rs lines 702-704). -/
def open_short (amount : ℚ) : Order := ⟨.sell, .short, amount⟩

/-- `executor::close_short` (executor.rs lines 706-708). -/
def close_short (amount : ℚ) : Order := ⟨.buy, .short, amount⟩

/-- `executor::execute_decision` (executor.rs lines 711-875), embedded as a
pure function from the decision context to the `TradeResult` and the list
of orders submitted, in submission order.  The exchange's textual order
confirmations are supplied by `order_info`; the fixed-point number
formatting of the Rust reason strings is abstracted by `toString`.  An
order failure makes the Rust function return `Err` instead; the embedding
describes the successful path, and the caller's handling of a failure is
embedded in `execute_symbol_cycle`. -/
def execute_decision (symbol : String) (decision : TradingDecision)
    (current_position : Option Position)
    (execution_price trade_amount max_position : ℚ) (timestamp : ℤ)
    (order_info : Order → String) : TradeResult × List Order :=
  match decision.signal with
  | .hold =>
      ({ symbol := symbol, action := .hold, price := execution_price,
         amount := 0, timestamp := timestamp, reason := decision.reason,
         pnl := none, order_details := none }, [])
  | .buy =>
    match current_position with
    | none =>
        ({ symbol := symbol, action := .openLong, price := execution_price,
           amount := trade_amount, timestamp := timestamp,
           reason := decision.reason, pnl := none,
           order_details := some (order_info (open_long trade_amount)) },
         [open_long trade_amount])
    | some pos =>
        if pos.side = .short then
          ({ symbol := symbol, action := .openLong, price := execution_price,
             amount := trade_amount, timestamp := timestamp,
             reason := decision.reason ++ " (平空仓盈亏: "
               ++ toString ((pos.entry_price - execution_price) * pos.amount)
               ++ ")",
             pnl := some ((pos.entry_price - execution_price) * pos.amount),
             order_details := some ("平空:" ++ order_info (close_short pos.amount)
               ++ ", 开多:" ++ order_info (open_long trade_amount)) },
           [close_short pos.amount, open_long trade_amount])
        else if pos.amount + trade_amount > max_position then
          ({ symbol := symbol, action := .hold, price := execution_price,
             amount := 0, timestamp := timestamp,
             reason := "已达最大持仓 " ++ toString pos.amount ++ "/"
               ++ toString max_position ++ "，无法加仓",
             pnl := none, order_details := none }, [])
        else
          ({ symbol := symbol, action := .openLong, price := execution_price,
             amount := trade_amount, timestamp := timestamp,
             reason := decision.reason ++ " (加仓: " ++ toString pos.amount
               ++ " → " ++ toString (pos.amount + trade_amount) ++ ")",
             pnl := none,
             order_details := some (order_info (open_long trade_amount)) },
           [open_long trade_amount])
  | .sell =>
    match current_position with
    | none =>
        ({ symbol := symbol, action := .openShort, price := execution_price,
           amount := trade_amount, timestamp := timestamp,
           reason := decision.reason, pnl := none,
           order_details := some (order_info (open_short trade_amount)) },
         [open_short trade_amount])
    | some pos =>
        if pos.side = .long then
          ({ symbol := symbol, action := .openShort, price := execution_price,
             amount := trade_amount, timestamp := timestamp,
             reason := decision.reason ++ " (平多仓盈亏: "
               ++ toString ((execution_price - pos.entry_price) * pos.amount)
               ++ ")",
             pnl := some ((execution_price - pos.entry_price) * pos.amount),
             order_details := some ("平多:" ++ order_info (close_long pos.amount)
               ++ ", 开空:" ++ order_info (open_short trade_amount)) },
           [close_long pos.amount, open_short trade_amount])
        else if pos.amount + trade_amount > max_position then
          ({ symbol := symbol, action := .hold, price := execution_price,
             amount := 0, timestamp := timestamp,
             reason := "已达最大持仓 " ++ toString pos.amount ++ "/"
               ++ toString max_position ++ "，无法加仓",
             pnl := none, order_details := none }, [])
        else
          ({ symbol := symbol, action := .openShort, price := execution_price,
             amount := trade_amount, timestamp := timestamp,
             reason := decision.reason ++ " (加仓: " ++ toString pos.amount
               ++ " → " ++ toString (pos.amount + trade_amount) ++ ")",
             pnl := none,
             order_details := some (order_info (open_short trade_amount)) },
           [open_short trade_amount])

/-! ## Portfolio orchestration (`main.rs`) -/

/-- `main::SymbolAnalysis` (main.rs lines 26-30), restricted to the fields
the orchestrator's caching logic reads; the market-report field is only
forwarded to the LLM providers, which are outside the model. -/
structure SymbolAnalysis where
  symbol : String
  position : Option Position
deriving DecidableEq, Repr

/-- One entry of `symbols_cache` (main.rs lines 437-440):
`(account snapshot, position, usable)`. -/
abbrev CacheEntry := Option AccountInfo × Option Position × Bool

/-- `main::SymbolCycleResult` (main.rs lines 19-23). -/
structure SymbolCycleResult where
  traded : Bool
  account_snapshot : Option AccountInfo
  position_snapshot : Option Position
deriving DecidableEq, Repr

/-- main.rs lines 561-564: the per-symbol quantity ceiling — the
allocation's override (defaulting to the configured `max_position`), capped
by the constraint's `max_qty` when set. -/
def max_amount_limit (alloc : SymbolAllocation) (c : SymbolConstraints)
    (max_position : ℚ) : ℚ :=
  match c.max_qty with
  | some mq => min (alloc.max_amount_override.getD max_position) mq
  | none => alloc.max_amount_override.getD max_position

/-- What Phase 3 does with one allocation before spawning its task. -/
inductive Phase3Dispatch where
  | skip (entry : CacheEntry)
  | execute (max_amount allocated_balance : ℚ) (constraint : SymbolConstraints)
deriving DecidableEq, Repr

/-- The per-allocation dispatch of Phase 3 (main.rs lines 522-597): either
the symbol is excluded and its cache entry is reset to the returned value,
or it proceeds to execution with the computed ceiling and budget. -/
def dispatch_allocation (alloc : SymbolAllocation)
    (analysis : Option SymbolAnalysis) (constraint : Option SymbolConstraints)
    (max_position : ℚ) : Phase3Dispatch :=
  match analysis with
  | none => .skip (none, none, false)
  | some a =>
    if alloc.priority = .skip then
      .skip (none, a.position, a.position.isSome)
    else
      match constraint with
      | none => .skip (none, none, false)
      | some c =>
        if alloc.allocated_balance ≤ 0 then
          .skip (none, a.position, a.position.isSome)
        else if max_amount_limit alloc c max_position ≤ 0 then
          .skip (none, a.position, a.position.isSome)
        else if c.min_qty > max_amount_limit alloc c max_position then
          .skip (none, a.position, a.position.isSome)
        else
          .execute (max_amount_limit alloc c max_position)
            alloc.allocated_balance c

/-- The decision-execution tail of `main::execute_symbol_cycle` (main.rs
lines 250-430), with the results of its network and LLM calls passed
explicitly: `account` is the fresh balance snapshot fetched at the start of
the task, `decision` the final signal produced by the agents, `raw_price`
the fetched market price, `exec_outcome` what `executor::execute_decision`
returned (or the error text it failed with), and `refreshed_account` /
`refreshed_position` the results of the post-trade refresh queries (their
`.ok()` values).  Returns the cycle result together with the trade results
logged via `state::log_trade`. -/
def execute_symbol_cycle (analysis : SymbolAnalysis)
    (allocated_max_amount allocated_balance : ℚ) (c : SymbolConstraints)
    (account : AccountInfo) (decision : TradingDecision) (raw_price : ℚ)
    (exec_outcome : Except String TradeResult) (timestamp : ℤ)
    (refreshed_account : Option AccountInfo)
    (refreshed_position : Option Position) :
    SymbolCycleResult × List TradeResult :=
  if decision.signal = .hold then
    (⟨false, some account, analysis.position⟩, [])
  else
    match adjust_trade_quantity decision.amount allocated_max_amount
        allocated_balance (quantize_price raw_price c.tick_size) c with
    | none => (⟨false, some account, analysis.position⟩, [])
    | some _trade_amount =>
      match exec_outcome with
      | .ok result =>
          if result.action = .hold then
            (⟨false, some account, analysis.position⟩, [result])
          else
            (⟨true, refreshed_account, refreshed_position⟩, [result])
      | .error e =>
          (⟨false, some account, analysis.position⟩,
           [{ symbol := analysis.symbol, action := .hold,
              price := quantize_price raw_price c.tick_size, amount := 0,
              timestamp := timestamp, reason := "交易失败: " ++ e, pnl := none,
              order_details := some ("ERROR: " ++ e) }])

/-- main.rs lines 609-613: the position cached after a successful task. -/
def merged_cache_position (result : SymbolCycleResult)
    (analysis : SymbolAnalysis) : Option Position :=
  match result.position_snapshot with
  | some pos => some pos
  | none => analysis.position

/-- The orchestrator's per-symbol cache update after a successful Phase-3
task (main.rs lines 603-616). -/
def merge_cache_entry (result : SymbolCycleResult)
    (analysis : SymbolAnalysis) : CacheEntry :=
  (result.account_snapshot, merged_cache_position result analysis,
   result.account_snapshot.isSome || (merged_cache_position result analysis).isSome)

/-- `symbols_cache` as an association list; inserting replaces any existing
binding, like `HashMap::insert`. -/
def cache_insert (m : List (String × CacheEntry)) (k : String)
    (v : CacheEntry) : List (String × CacheEntry) :=
  (k, v) :: m.filter (fun kv => kv.1 ≠ k)

/-- Lookup in the association-list cache. -/
def cache_lookup (m : List (String × CacheEntry)) (k : String) :
    Option CacheEntry :=
  (m.find? (fun kv => kv.1 = k)).map (fun kv => kv.2)

/-- The post-join merge loop of `run_portfolio_cycle` (main.rs lines
599-623): each task's outcome updates its own symbol's cache entry — an
`Ok` result is merged via `merge_cache_entry`, an `Err` resets the entry to
`(none, none, false)`. -/
def merge_execution_results (m : List (String × CacheEntry))
    (results : List (String × Except String SymbolCycleResult × SymbolAnalysis)) :
    List (String × CacheEntry) :=
  results.foldl (fun acc r =>
    match r.2.1 with
    | .ok result => cache_insert acc r.1 (merge_cache_entry result r.2.2)
    | .error _ => cache_insert acc r.1 (none, none, false)) m

end Trade

namespace Trade

/-! ## Helper lemmas -/

lemma quantize_down_of_step_pos (value step : ℚ) (hs : 0 < step) :
    quantize_down value step = max ((⌊value / step⌋ : ℚ) * step) 0 := by
  simp [quantize_down, not_le.mpr hs]

lemma quantize_down_of_step_nonpos (value step : ℚ) (hs : step ≤ 0) :
    quantize_down value step = value := by
  simp [quantize_down, hs]

/-- A quantized-down value is an integer multiple of a positive step. -/
lemma quantize_down_mul (value step : ℚ) (hs : 0 < step) :
    ∃ k : ℤ, quantize_down value step = (k : ℚ) * step := by
  rw [quantize_down_of_step_pos value step hs]
  rcases le_total ((⌊value / step⌋ : ℚ) * step) 0 with h | h
  · exact ⟨0, by rw [max_eq_right h]; simp⟩
  · exact ⟨⌊value / step⌋, by rw [max_eq_left h]⟩

lemma quantize_up_mul (value step : ℚ) (hs : 0 < step) :
    ∃ k : ℤ, quantize_up value step = (k : ℚ) * step := by
  rw [quantize_up, if_neg (not_le.mpr hs)]
  rcases le_total ((⌈value / step⌉ : ℚ) * step) 0 with h | h
  · exact ⟨0, by rw [max_eq_right h]; simp⟩
  · exact ⟨⌈value / step⌉, by rw [max_eq_left h]⟩

/-- `quantize_down` never exceeds `max value 0`. -/
lemma quantize_down_le_max (value step : ℚ) :
    quantize_down value step ≤ max value 0 := by
  unfold quantize_down
  split
  · exact le_max_left _ _
  · rename_i hs
    have hs' : 0 < step := not_le.mp hs
    have hfl : (⌊value / step⌋ : ℚ) * step ≤ value := by
      have := Int.floor_le (value / step)
      calc (⌊value / step⌋ : ℚ) * step ≤ (value / step) * step :=
            mul_le_mul_of_nonneg_right this (le_of_lt hs')
        _ = value := div_mul_cancel₀ value (ne_of_gt hs')
    exact max_le_max_right 0 hfl

/-- For nonnegative input, `quantize_down` never exceeds the input. -/
lemma quantize_down_le (value step : ℚ) (hv : 0 ≤ value) :
    quantize_down value step ≤ value := by
  have := quantize_down_le_max value step
  rwa [max_eq_left hv] at this

/-- `quantize_up` is at least the input. -/
lemma le_quantize_up (value step : ℚ) :
    value ≤ quantize_up value step := by
  unfold quantize_up
  split
  · exact le_refl _
  · rename_i hs
    have hs' : 0 < step := not_le.mp hs
    have hcl : value ≤ (⌈value / step⌉ : ℚ) * step := by
      have := Int.le_ceil (value / step)
      calc value = (value / step) * step := (div_mul_cancel₀ value (ne_of_gt hs')).symm
        _ ≤ (⌈value / step⌉ : ℚ) * step :=
            mul_le_mul_of_nonneg_right this (le_of_lt hs')
    exact le_trans hcl (le_max_left _ _)

lemma quantize_down_nonneg (value step : ℚ) (hv : 0 ≤ value) :
    0 ≤ quantize_down value step := by
  unfold quantize_down
  split
  · exact hv
  · exact le_max_right _ _

lemma effective_max_limit_pos (allocated_max allocated_balance price : ℚ)
    (h : 0 < allocated_max) :
    0 < effective_max_limit allocated_max allocated_balance price := by
  unfold effective_max_limit
  split
  · split
    · rename_i hbl
      exact lt_min h hbl
    · exact h
  · exact h

lemma raise_to_min_qty_mul (qty : ℚ) (c : SymbolConstraints)
    (hs : 0 < c.step_size) (h : ∃ k : ℤ, qty = (k : ℚ) * c.step_size) :
    ∃ k : ℤ, raise_to_min_qty qty c = (k : ℚ) * c.step_size := by
  unfold raise_to_min_qty
  split
  · exact quantize_up_mul _ _ hs
  · exact h

lemma cap_max_qty_mul (qty : ℚ) (c : SymbolConstraints)
    (hs : 0 < c.step_size) (h : ∃ k : ℤ, qty = (k : ℚ) * c.step_size) :
    ∃ k : ℤ, cap_max_qty qty c = (k : ℚ) * c.step_size := by
  unfold cap_max_qty
  cases c.max_qty with
  | none => exact h
  | some m =>
      simp only []
      split
      · exact quantize_down_mul _ _ hs
      · exact h

lemma raise_to_min_notional_mul (qty price : ℚ) (c : SymbolConstraints)
    (hs : 0 < c.step_size) (h : ∃ k : ℤ, qty = (k : ℚ) * c.step_size) :
    ∃ k : ℤ, raise_to_min_notional qty price c = (k : ℚ) * c.step_size := by
  unfold raise_to_min_notional
  split
  · split
    · exact quantize_up_mul _ _ hs
    · exact h
  · exact h

lemma recap_effective_max_mul (qty effective_max : ℚ) (c : SymbolConstraints)
    (hs : 0 < c.step_size) (h : ∃ k : ℤ, qty = (k : ℚ) * c.step_size) :
    ∃ k : ℤ, recap_effective_max qty effective_max c = (k : ℚ) * c.step_size := by
  unfold recap_effective_max
  split
  · exact quantize_down_mul _ _ hs
  · exact h

/-- With a positive step, the resolver's final quantity is a multiple of it. -/
lemma final_qty_mul (desired allocated_max allocated_balance price : ℚ)
    (c : SymbolConstraints) (hs : 0 < c.step_size) :
    ∃ k : ℤ, final_qty desired allocated_max allocated_balance price c
      = (k : ℚ) * c.step_size := by
  unfold final_qty
  exact cap_max_qty_mul _ _ hs
    (recap_effective_max_mul _ _ _ hs
      (raise_to_min_notional_mul _ _ _ hs
        (cap_max_qty_mul _ _ hs
          (raise_to_min_qty_mul _ _ hs
            (quantize_down_mul _ _ hs)))))

lemma recap_effective_max_le (qty effective_max : ℚ) (c : SymbolConstraints)
    (hem : 0 < effective_max) :
    recap_effective_max qty effective_max c ≤ effective_max := by
  unfold recap_effective_max
  split
  · have := quantize_down_le_max effective_max c.step_size
    rwa [max_eq_left (le_of_lt hem)] at this
  · rename_i hle
    exact le_of_not_lt hle

lemma cap_max_qty_le (qty cap : ℚ) (c : SymbolConstraints)
    (hq : qty ≤ cap) (hcap : 0 < cap) :
    cap_max_qty qty c ≤ cap := by
  unfold cap_max_qty
  cases c.max_qty with
  | none => exact hq
  | some m =>
      simp only []
      split
      · rename_i hm
        have h1 := quantize_down_le_max m c.step_size
        have h2 : max m 0 ≤ cap :=
          max_le (le_trans (le_of_lt hm) hq) (le_of_lt hcap)
        exact le_trans h1 h2
      · exact hq

/-- The final quantity never exceeds the effective ceiling (positive case). -/
lemma final_qty_le_effective_max (desired allocated_max allocated_balance price : ℚ)
    (c : SymbolConstraints)
    (hem : 0 < effective_max_limit allocated_max allocated_balance price) :
    final_qty desired allocated_max allocated_balance price c
      ≤ effective_max_limit allocated_max allocated_balance price := by
  unfold final_qty
  exact cap_max_qty_le _ _ _
    (recap_effective_max_le _ _ _ hem) hem

lemma backoff_after_append (b : ℕ) (xs ys : List StreamOutcome) :
    backoff_after b (xs ++ ys) = backoff_after (backoff_after b xs) ys := by
  induction xs generalizing b with
  | nil => rfl
  | cons x xs ih => simp [backoff_after, ih]

lemma stream_loop_waits_append (b : ℕ) (xs ys : List StreamOutcome) :
    stream_loop_waits b (xs ++ ys)
      = stream_loop_waits b xs ++ stream_loop_waits (backoff_after b xs) ys := by
  induction xs generalizing b with
  | nil => rfl
  | cons x xs ih => simp [stream_loop_waits, backoff_after, ih]

/-- The backoff never grows past 60 seconds. -/
lemma backoff_after_le (b : ℕ) (os : List StreamOutcome) (hb : b ≤ 60) :
    backoff_after b os ≤ 60 := by
  induction os generalizing b with
  | nil => exact hb
  | cons o os ih =>
      cases o with
      | ok => exact ih 5 (by norm_num)
      | err => exact ih _ (min_le_right _ _)

/-- Every sleep in the reconnection loop is at most 60 seconds (for a
current backoff of at most 60). -/
lemma stream_loop_waits_le (b : ℕ) (os : List StreamOutcome) (hb : b ≤ 60) :
    ∀ w ∈ stream_loop_waits b os, w ≤ 60 := by
  induction os generalizing b with
  | nil => intro w hw; simp [stream_loop_waits] at hw
  | cons o os ih =>
      intro w hw
      cases o with
      | ok =>
          simp only [stream_loop_waits, stream_loop_step, List.mem_cons] at hw
          rcases hw with h | h
          · omega
          · exact ih 5 (by norm_num) w h
      | err =>
          simp only [stream_loop_waits, stream_loop_step, List.mem_cons] at hw
          rcases hw with h | h
          · omega
          · exact ih _ (min_le_right _ _) w h

lemma consider_position_of_not_kept (symbol : String) (best : Option Position)
    (pos : PositionRisk) (h : ¬ record_kept symbol pos) :
    consider_position symbol best pos = best := by
  unfold consider_position
  unfold record_kept at h
  push_neg at h
  by_cases hs : pos.symbol = symbol
  · rw [if_neg (by simp [hs]), if_pos (h hs)]
  · rw [if_pos hs]

lemma consider_position_of_kept (symbol : String) (best : Option Position)
    (pos : PositionRisk) (h : record_kept symbol pos) :
    consider_position symbol best pos =
      match best with
      | none => some (position_of_risk pos)
      | some existing =>
          if (position_of_risk pos).amount > existing.amount then
            some (position_of_risk pos)
          else best := by
  obtain ⟨hs, hb⟩ := h
  unfold consider_position
  rw [if_neg (by simp [hs]), if_neg hb]

/-- After a kept record, the running best is some position whose amount
dominates both that record's amount and the previous best. -/
lemma consider_position_kept_cases (symbol : String) (best : Option Position)
    (pos : PositionRisk) (h : record_kept symbol pos) :
    ∃ m : Position, consider_position symbol best pos = some m ∧
      |pos.positionAmt| ≤ m.amount ∧
      (m = position_of_risk pos ∨ best = some m) ∧
      (∀ q : Position, best = some q → q.amount ≤ m.amount) := by
  rw [consider_position_of_kept symbol best pos h]
  cases best with
  | none =>
      refine ⟨position_of_risk pos, rfl, ?_, Or.inl rfl, ?_⟩
      · simp [position_of_risk]
      · intro q hq
        cases hq
  | some existing =>
      by_cases hgt : (position_of_risk pos).amount > existing.amount
      · refine ⟨position_of_risk pos, by simp [hgt], ?_, Or.inl rfl, ?_⟩
        · simp [position_of_risk]
        · intro q hq
          cases hq
          exact le_of_lt hgt
      · refine ⟨existing, by simp [hgt], ?_, Or.inr rfl, ?_⟩
        · have h1 : (position_of_risk pos).amount ≤ existing.amount := not_lt.mp hgt
          have h2 : |pos.positionAmt| = (position_of_risk pos).amount := by
            simp [position_of_risk]
          rw [h2]
          exact h1
        · intro q hq
          cases hq
          exact le_refl _

/-- Invariant of the selection fold in `get_position`: a `some` result comes
from the initial best or a kept record, its amount dominates every kept
record's absolute amount, and it dominates the initial best. -/
lemma foldl_consider_spec (symbol : String) (ps : List PositionRisk) :
    ∀ (best : Option Position) (p : Position),
      List.foldl (consider_position symbol) best ps = some p →
      (best = some p ∨ ∃ r ∈ ps, record_kept symbol r ∧ p = position_of_risk r) ∧
      (∀ r ∈ ps, record_kept symbol r → |r.positionAmt| ≤ p.amount) ∧
      (∀ q : Position, best = some q → q.amount ≤ p.amount) := by
  induction ps with
  | nil =>
      intro best p h
      simp only [List.foldl_nil] at h
      subst h
      refine ⟨Or.inl rfl, ?_, ?_⟩
      · intro r hr
        simp at hr
      · intro q hq
        cases hq
        exact le_refl _
  | cons r rs ih =>
      intro best p h
      simp only [List.foldl_cons] at h
      by_cases hk : record_kept symbol r
      · obtain ⟨m, hm, hamt, hor, hdom⟩ :=
          consider_position_kept_cases symbol best r hk
        rw [hm] at h
        obtain ⟨ih1, ih2, ih3⟩ := ih (some m) p h
        have hmp : m.amount ≤ p.amount := ih3 m rfl
        refine ⟨?_, ?_, ?_⟩
        · rcases ih1 with h1 | ⟨r', hr', hk', hp'⟩
          · have hmeq : m = p := Option.some.inj h1
            subst hmeq
            rcases hor with h2 | h2
            · exact Or.inr ⟨r, List.mem_cons_self r rs, hk, h2⟩
            · exact Or.inl h2
          · exact Or.inr ⟨r', List.mem_cons_of_mem r hr', hk', hp'⟩
        · intro r' hr' hk'
          rcases List.mem_cons.mp hr' with h2 | h2
          · subst h2
            exact le_trans hamt hmp
          · exact ih2 r' h2 hk'
        · intro q hq
          exact le_trans (hdom q hq) hmp
      · rw [consider_position_of_not_kept symbol best r hk] at h
        obtain ⟨ih1, ih2, ih3⟩ := ih best p h
        refine ⟨?_, ?_, ih3⟩
        · rcases ih1 with h1 | ⟨r', hr', hk', hp'⟩
          · exact Or.inl h1
          · exact Or.inr ⟨r', List.mem_cons_of_mem r hr', hk', hp'⟩
        · intro r' hr' hk'
          rcases List.mem_cons.mp hr' with h2 | h2
          · subst h2
            exact absurd hk' hk
          · exact ih2 r' h2 hk'

/-- If no record is kept, the selection fold leaves the best unchanged. -/
lemma foldl_consider_of_none_kept (symbol : String) (ps : List PositionRisk)
    (h : ∀ r ∈ ps, ¬ record_kept symbol r) :
    ∀ best, List.foldl (consider_position symbol) best ps = best := by
  induction ps with
  | nil =>
      intro best
      rfl
  | cons r rs ih =>
      intro best
      simp only [List.foldl_cons]
      rw [consider_position_of_not_kept symbol best r
        (h r (List.mem_cons_self r rs))]
      exact ih (fun r' hr' => h r' (List.mem_cons_of_mem r hr')) best

end Trade

namespace Trade

/-! ## Theorems about the specification's claims -/

/-- C1: every quantity the order sizing resolver accepts is a multiple of
`step_size` (when `step_size > 0`), is at least `min_qty`, is at most the
effective ceiling `effective_max_limit allocated_max allocated_balance price`,
and — when `min_notional > 0` and `price > 0` — has notional value at least
`min_notional - f64_epsilon`. -/
theorem adjust_trade_quantity_spec
    (desired allocated_max allocated_balance price qty : ℚ)
    (c : SymbolConstraints)
    (h : adjust_trade_quantity desired allocated_max allocated_balance price c
      = some qty) :
    (0 < c.step_size → ∃ k : ℤ, qty = (k : ℚ) * c.step_size) ∧
    c.min_qty ≤ qty ∧
    qty ≤ effective_max_limit allocated_max allocated_balance price ∧
    (0 < c.min_notional → 0 < price →
      c.min_notional - f64_epsilon ≤ qty * price) := by
  unfold adjust_trade_quantity at h
  split at h
  · exact absurd h (by simp)
  · rename_i ham
    have ham' : 0 < allocated_max := not_le.mp ham
    split at h
    · exact absurd h (by simp)
    · rename_i hmin
      split at h
      · exact absurd h (by simp)
      · rename_i hnot
        split at h
        · exact absurd h (by simp)
        · have hq : final_qty desired allocated_max allocated_balance price c = qty :=
            Option.some.inj h
          subst hq
          refine ⟨fun hs => final_qty_mul _ _ _ _ c hs, le_of_not_lt hmin,
            final_qty_le_effective_max _ _ _ _ c
              (effective_max_limit_pos _ _ _ ham'), ?_⟩
          intro hmn hp
          by_contra hcon
          exact hnot ⟨hmn, hp, by linarith [not_le.mp hcon]⟩

/-- Witness for C1: the accepted quantity of the spec's second worked example
(`step=1/1000, minQty=1/500, minNotional=5, price=100, desired=1/2000,
allocatedMax=1/10, allocatedBalance=1000`) satisfies all four bounds. -/
theorem adjust_trade_quantity_spec_witness :
    (0 < (1/1000 : ℚ) → ∃ k : ℤ, (1/20 : ℚ) = (k : ℚ) * (1/1000)) ∧
    (1/500 : ℚ) ≤ 1/20 ∧
    (1/20 : ℚ) ≤ effective_max_limit (1/10) 1000 100 ∧
    (0 < (5 : ℚ) → 0 < (100 : ℚ) → (5 : ℚ) - f64_epsilon ≤ (1/20) * 100) :=
  adjust_trade_quantity_spec (1/2000) (1/10) 1000 100 (1/20)
    ⟨1/1000, 1/500, none, 5, 1/10⟩ (by
      norm_num [adjust_trade_quantity, final_qty, initial_qty, clamp_above,
        raise_to_min_qty, cap_max_qty, raise_to_min_notional,
        recap_effective_max, quantize_down, quantize_up, effective_max_limit,
        f64_epsilon])

/-- C2: on the spec's worked example (`stepSize=1/1000, minQty=1/500,
minNotional=5, tickSize=1/10, price=100, desired=1/2000,
allocatedBalance=1000`), the resolver rejects with `allocatedMax=1/100`
and accepts exactly `1/20` with `allocatedMax=1/10`. -/
theorem adjust_trade_quantity_examples :
    adjust_trade_quantity (1/2000) (1/100) 1000 100
      ⟨1/1000, 1/500, none, 5, 1/10⟩ = none ∧
    adjust_trade_quantity (1/2000) (1/10) 1000 100
      ⟨1/1000, 1/500, none, 5, 1/10⟩ = some (1/20) := by
  constructor <;>
    norm_num [adjust_trade_quantity, final_qty, initial_qty, clamp_above,
      raise_to_min_qty, cap_max_qty, raise_to_min_notional,
      recap_effective_max, quantize_down, quantize_up, effective_max_limit,
      f64_epsilon]

/-- C3: `quantize_down` equals `floor(value/step)*step` clamped to ≥ 0 when
`step > 0`, is the identity when `step ≤ 0`, and for `step > 0`, `value ≥ 0`
the result is at most `value` and is an integer multiple of `step`. -/
theorem quantize_down_spec (value step : ℚ) :
    (0 < step → quantize_down value step = max ((⌊value / step⌋ : ℚ) * step) 0) ∧
    (step ≤ 0 → quantize_down value step = value) ∧
    (0 < step → 0 ≤ value →
      quantize_down value step ≤ value ∧
      ∃ k : ℤ, quantize_down value step = (k : ℚ) * step) :=
  ⟨fun hs => quantize_down_of_step_pos value step hs,
   fun hs => quantize_down_of_step_nonpos value step hs,
   fun hs hv => ⟨quantize_down_le value step hv, quantize_down_mul value step hs⟩⟩

/-- Witness for C3 at `value = 7/10`, `step = 3/10` and at `step = 0`. -/
theorem quantize_down_spec_witness :
    quantize_down (7/10) (3/10) = max ((⌊(7/10 : ℚ) / (3/10)⌋ : ℚ) * (3/10)) 0 ∧
    quantize_down (7/10) 0 = 7/10 ∧
    quantize_down (7/10) (3/10) ≤ 7/10 ∧
    (∃ k : ℤ, quantize_down (7/10) (3/10) = (k : ℚ) * (3/10)) :=
  ⟨(quantize_down_spec (7/10) (3/10)).1 (by norm_num),
   (quantize_down_spec (7/10) 0).2.1 (by norm_num),
   ((quantize_down_spec (7/10) (3/10)).2.2 (by norm_num) (by norm_num)).1,
   ((quantize_down_spec (7/10) (3/10)).2.2 (by norm_num) (by norm_num)).2⟩

/-- C4: starting from the initial 5-second backoff, three consecutive stream
failures sleep 5 s, 10 s, 20 s; the backoff (and hence every failure sleep)
is capped at 60 s; after a normal stream end the loop sleeps 1 s, the
backoff is reset to 5 s, and the next failure therefore waits 5 s again. -/
theorem account_stream_backoff_spec :
    stream_loop_waits initial_backoff [.err, .err, .err] = [5, 10, 20] ∧
    (∀ os : List StreamOutcome, backoff_after initial_backoff os ≤ 60) ∧
    (∀ os : List StreamOutcome, ∀ w ∈ stream_loop_waits initial_backoff os,
      w ≤ 60) ∧
    (∀ os : List StreamOutcome,
      stream_loop_waits initial_backoff (os ++ [.ok])
        = stream_loop_waits initial_backoff os ++ [1] ∧
      backoff_after initial_backoff (os ++ [.ok]) = 5 ∧
      stream_loop_waits initial_backoff (os ++ [.ok, .err])
        = stream_loop_waits initial_backoff os ++ [1, 5]) := by
  refine ⟨rfl, fun os => backoff_after_le _ os (by norm_num [initial_backoff]),
    fun os => stream_loop_waits_le _ os (by norm_num [initial_backoff]),
    fun os => ?_⟩
  have hok : stream_loop_waits initial_backoff (os ++ [.ok])
      = stream_loop_waits initial_backoff os ++ [1] := by
    rw [stream_loop_waits_append]
    rfl
  have hb : backoff_after initial_backoff (os ++ [.ok]) = 5 := by
    rw [backoff_after_append]
    rfl
  refine ⟨hok, hb, ?_⟩
  have : os ++ [StreamOutcome.ok, StreamOutcome.err]
      = (os ++ [StreamOutcome.ok]) ++ [StreamOutcome.err] := by
    simp
  rw [this, stream_loop_waits_append, hok, hb]
  simp [stream_loop_waits, stream_loop_step]

/-- Witness for C4: the bounded-wait and reset conjuncts applied to the
concrete outcome sequence `[err, ok]`. -/
theorem account_stream_backoff_spec_witness :
    (backoff_after initial_backoff [.err, .ok] ≤ 60) ∧
    (∀ w ∈ stream_loop_waits initial_backoff [.err, .ok], w ≤ 60) ∧
    stream_loop_waits initial_backoff ([.err] ++ [.ok])
      = stream_loop_waits initial_backoff [.err] ++ [1] ∧
    backoff_after initial_backoff ([.err] ++ [.ok]) = 5 ∧
    stream_loop_waits initial_backoff ([.err] ++ [.ok, .err])
      = stream_loop_waits initial_backoff [.err] ++ [1, 5] :=
  ⟨account_stream_backoff_spec.2.1 [.err, .ok],
   account_stream_backoff_spec.2.2.1 [.err, .ok],
   (account_stream_backoff_spec.2.2.2 [.err]).1,
   (account_stream_backoff_spec.2.2.2 [.err]).2.1,
   (account_stream_backoff_spec.2.2.2 [.err]).2.2⟩

/-- C5: the cache read operation never writes the shared snapshot cell —
with a cached snapshot it returns it at once with no network call and the
cell unchanged; with no cached value and no push within the bounded wait it
returns the one-off REST query's result and the cell stays empty; in every
case the cell after the call holds exactly what the cache held or what the
background writer pushed, never something the reader wrote. -/
theorem get_account_info_frame :
    (∀ (s : AccountInfo) (push : Option AccountInfo) (rest : AccountInfo),
      get_account_info (some s) push rest = (s, some s, false)) ∧
    (∀ rest : AccountInfo, get_account_info none none rest = (rest, none, true)) ∧
    (∀ (cache push : Option AccountInfo) (rest : AccountInfo),
      (get_account_info cache push rest).2.1
        = match cache with
          | some s => some s
          | none => push) := by
  refine ⟨fun s push rest => rfl, fun rest => rfl, fun cache push rest => ?_⟩
  cases cache with
  | some s => rfl
  | none => cases push with
    | some s => rfl
    | none => rfl

/-- C6 counterexample: a symbol excluded with priority `Skip` while the
analysis carries an open position gets the cache entry
`(none, the position, true)` — the usable flag is the position's presence,
not `false` as the claim states. -/
theorem excluded_symbol_cache_counterexample :
    dispatch_allocation ⟨"BTCUSDT", 100, 1/2, .skip, none⟩
        (some ⟨"BTCUSDT", some ⟨.long, 1, 100, 0⟩⟩)
        (some ⟨1/1000, 1/500, none, 5, 1/10⟩) (1/200)
      = .skip (none, some ⟨.long, 1, 100, 0⟩, true) ∧
    Phase3Dispatch.skip (none, some ⟨PositionSide.long, 1, 100, 0⟩, true)
      ≠ .skip (none, some ⟨PositionSide.long, 1, 100, 0⟩, false) := by
  constructor
  · rfl
  · simp

/-- C6 (amended): a symbol excluded because its priority is `Skip`, its
allocated budget is non-positive, or its quantity ceiling is non-positive
has its cache entry reset to `(none, analysed position, position present)` —
the usable flag records whether a position is known, not `false`; a symbol
excluded for a missing constraint set is reset to `(none, none, false)`,
dropping the analysed position. -/
theorem excluded_symbol_cache_reset (alloc : SymbolAllocation)
    (a : SymbolAnalysis) (copt : Option SymbolConstraints)
    (max_position : ℚ) :
    (alloc.priority = .skip →
      dispatch_allocation alloc (some a) copt max_position
        = .skip (none, a.position, a.position.isSome)) ∧
    (alloc.priority ≠ .skip → copt = none →
      dispatch_allocation alloc (some a) copt max_position
        = .skip (none, none, false)) ∧
    (∀ c : SymbolConstraints, alloc.priority ≠ .skip → copt = some c →
      alloc.allocated_balance ≤ 0 →
      dispatch_allocation alloc (some a) copt max_position
        = .skip (none, a.position, a.position.isSome)) ∧
    (∀ c : SymbolConstraints, alloc.priority ≠ .skip → copt = some c →
      0 < alloc.allocated_balance → max_amount_limit alloc c max_position ≤ 0 →
      dispatch_allocation alloc (some a) copt max_position
        = .skip (none, a.position, a.position.isSome)) := by
  refine ⟨?_, ?_, ?_, ?_⟩
  · intro h
    simp [dispatch_allocation, h]
  · intro h hc
    subst hc
    simp [dispatch_allocation, h]
  · intro c h hc hb
    subst hc
    simp [dispatch_allocation, h, hb]
  · intro c h hc hb hm
    subst hc
    simp [dispatch_allocation, h, not_le.mpr hb, hm]

/-- Witness for the amended C6: the `Skip`-priority and missing-constraint
branches at concrete inputs. -/
theorem excluded_symbol_cache_reset_witness :
    dispatch_allocation ⟨"ETHUSDT", 50, 1/4, .skip, none⟩
        (some ⟨"ETHUSDT", none⟩) (some ⟨1/100, 1/10, none, 5, 1/100⟩) (1/200)
      = .skip (none, none, false) ∧
    dispatch_allocation ⟨"ETHUSDT", 50, 1/4, .high, none⟩
        (some ⟨"ETHUSDT", none⟩) none (1/200)
      = .skip (none, none, false) :=
  ⟨by
    have h := (excluded_symbol_cache_reset ⟨"ETHUSDT", 50, 1/4, .skip, none⟩
      ⟨"ETHUSDT", none⟩ (some ⟨1/100, 1/10, none, 5, 1/100⟩) (1/200)).1 rfl
    simpa using h,
   by
    have h := (excluded_symbol_cache_reset ⟨"ETHUSDT", 50, 1/4, .high, none⟩
      ⟨"ETHUSDT", none⟩ none (1/200)).2.1 (by simp) rfl
    simpa using h⟩

/-- C7 counterexample: with a prior cache entry `(none, none, false)` for
BTCUSDT, a cycle in which quantity resolution rejects (the spec's own
rejection example) replaces the entry with the fresh account snapshot,
marked usable — the prior entry is not left untouched. -/
theorem rejection_cache_untouched_counterexample :
    cache_lookup
      (merge_execution_results [("BTCUSDT", (none, none, false))]
        [("BTCUSDT",
          Except.ok (execute_symbol_cycle ⟨"BTCUSDT", none⟩ (1/100) 1000
            ⟨1/1000, 1/500, none, 5, 1/10⟩ ⟨"1000", "1000"⟩
            ⟨.buy, "signal", .high, 1/2000⟩ 100 (.error "unused") 0
            none none).1,
          ⟨"BTCUSDT", none⟩)])
      "BTCUSDT"
      = some (some ⟨"1000", "1000"⟩, none, true) ∧
    cache_lookup [("BTCUSDT", ((none, none, false) : CacheEntry))] "BTCUSDT"
      = some (none, none, false) ∧
    (some (AccountInfo.mk "1000" "1000"), (none : Option Position), true)
      ≠ ((none, none, false) : CacheEntry) := by
  refine ⟨?_, ?_, ?_⟩
  · have hadj : adjust_trade_quantity (1/2000) (1/100) 1000
        (quantize_price 100 (1/10)) ⟨1/1000, 1/500, none, 5, 1/10⟩ = none := by
      norm_num [adjust_trade_quantity, final_qty, initial_qty, clamp_above,
        raise_to_min_qty, cap_max_qty, raise_to_min_notional,
        recap_effective_max, quantize_down, quantize_up, effective_max_limit,
        f64_epsilon, quantize_price, round_half_away]
    have hres : (execute_symbol_cycle ⟨"BTCUSDT", none⟩ (1/100) 1000
        ⟨1/1000, 1/500, none, 5, 1/10⟩ ⟨"1000", "1000"⟩
        ⟨.buy, "signal", .high, 1/2000⟩ 100 (.error "unused") 0
        none none).1 = ⟨false, some ⟨"1000", "1000"⟩, none⟩ := by
      unfold execute_symbol_cycle
      rw [if_neg (by simp), hadj]
    rw [hres]
    rfl
  · rfl
  · simp

/-- C7 (amended): when quantity resolution rejects, the orchestrator does
not leave the prior cache entry untouched — it replaces the symbol's entry
with the fresh pre-decision account snapshot and the analysed position,
marked usable. -/
theorem rejection_replaces_cache_entry (analysis : SymbolAnalysis)
    (am ab : ℚ) (c : SymbolConstraints) (account : AccountInfo)
    (decision : TradingDecision) (raw_price : ℚ)
    (exec_outcome : Except String TradeResult) (ts : ℤ)
    (ra : Option AccountInfo) (rp : Option Position)
    (hsig : decision.signal ≠ .hold)
    (hadj : adjust_trade_quantity decision.amount am ab
      (quantize_price raw_price c.tick_size) c = none) :
    merge_cache_entry
      (execute_symbol_cycle analysis am ab c account decision raw_price
        exec_outcome ts ra rp).1 analysis
      = (some account, analysis.position, true) := by
  unfold execute_symbol_cycle
  rw [if_neg hsig, hadj]
  cases h : analysis.position <;>
    simp [merge_cache_entry, merged_cache_position, h]

/-- Witness for the amended C7 at the counterexample's concrete input. -/
theorem rejection_replaces_cache_entry_witness :
    merge_cache_entry
      (execute_symbol_cycle ⟨"BTCUSDT", none⟩ (1/100) 1000
        ⟨1/1000, 1/500, none, 5, 1/10⟩ ⟨"1000", "1000"⟩
        ⟨.buy, "signal", .high, 1/2000⟩ 100 (.error "unused") 0
        none none).1 ⟨"BTCUSDT", none⟩
      = (some ⟨"1000", "1000"⟩, none, true) :=
  rejection_replaces_cache_entry ⟨"BTCUSDT", none⟩ (1/100) 1000
    ⟨1/1000, 1/500, none, 5, 1/10⟩ ⟨"1000", "1000"⟩
    ⟨.buy, "signal", .high, 1/2000⟩ 100 (.error "unused") 0 none none
    (by simp)
    (by
      norm_num [adjust_trade_quantity, final_qty, initial_qty, clamp_above,
        raise_to_min_qty, cap_max_qty, raise_to_min_notional,
        recap_effective_max, quantize_down, quantize_up, effective_max_limit,
        f64_epsilon, quantize_price, round_half_away])

/-- C8: when order submission fails with error `e`, the task logs exactly
one zero-amount Hold trade carrying the error text, still produces a cycle
result (the Rust function returns `Ok`), and the merge loop updates every
other symbol's cache entry from that symbol's own result alone. -/
theorem submission_failure_isolated (analysis : SymbolAnalysis)
    (am ab : ℚ) (c : SymbolConstraints) (account : AccountInfo)
    (decision : TradingDecision) (raw_price : ℚ) (e : String) (ts : ℤ)
    (ra : Option AccountInfo) (rp : Option Position) (qty : ℚ)
    (hsig : decision.signal ≠ .hold)
    (hadj : adjust_trade_quantity decision.amount am ab
      (quantize_price raw_price c.tick_size) c = some qty) :
    execute_symbol_cycle analysis am ab c account decision raw_price
        (.error e) ts ra rp
      = (⟨false, some account, analysis.position⟩,
         [{ symbol := analysis.symbol, action := .hold,
            price := quantize_price raw_price c.tick_size, amount := 0,
            timestamp := ts, reason := "交易失败: " ++ e, pnl := none,
            order_details := some ("ERROR: " ++ e) }]) ∧
    (∀ (m : List (String × CacheEntry)) (symA symB : String)
      (resB : SymbolCycleResult) (analysisB : SymbolAnalysis),
      symA ≠ symB →
      cache_lookup
        (merge_execution_results m
          [(symA,
            Except.ok (execute_symbol_cycle analysis am ab c account decision
              raw_price (.error e) ts ra rp).1, analysis),
           (symB, Except.ok resB, analysisB)]) symB
        = some (merge_cache_entry resB analysisB)) := by
  have hexec : execute_symbol_cycle analysis am ab c account decision raw_price
      (.error e) ts ra rp
      = (⟨false, some account, analysis.position⟩,
         [{ symbol := analysis.symbol, action := .hold,
            price := quantize_price raw_price c.tick_size, amount := 0,
            timestamp := ts, reason := "交易失败: " ++ e, pnl := none,
            order_details := some ("ERROR: " ++ e) }]) := by
    unfold execute_symbol_cycle
    rw [if_neg hsig, hadj]
  refine ⟨hexec, ?_⟩
  intro m symA symB resB analysisB hne
  simp [merge_execution_results, cache_insert, cache_lookup]

/-- Witness for C8: a concrete failing submission for BTCUSDT leaves
ETHUSDT's merged cache entry intact. -/
theorem submission_failure_isolated_witness :
    execute_symbol_cycle ⟨"BTCUSDT", none⟩ (1/10) 1000
        ⟨1/1000, 1/500, none, 5, 1/10⟩ ⟨"1000", "1000"⟩
        ⟨.buy, "signal", .high, 1/2000⟩ 100 (.error "rejected") 0 none none
      = (⟨false, some ⟨"1000", "1000"⟩, none⟩,
         [{ symbol := "BTCUSDT", action := .hold,
            price := quantize_price 100 (1/10), amount := 0,
            timestamp := 0, reason := "交易失败: " ++ "rejected", pnl := none,
            order_details := some ("ERROR: " ++ "rejected") }]) ∧
    cache_lookup
      (merge_execution_results []
        [("BTCUSDT",
          Except.ok (execute_symbol_cycle ⟨"BTCUSDT", none⟩ (1/10) 1000
            ⟨1/1000, 1/500, none, 5, 1/10⟩ ⟨"1000", "1000"⟩
            ⟨.buy, "signal", .high, 1/2000⟩ 100 (.error "rejected") 0
            none none).1, ⟨"BTCUSDT", none⟩),
         ("ETHUSDT",
          Except.ok ⟨false, none, some ⟨.long, 1, 100, 0⟩⟩,
          ⟨"ETHUSDT", some ⟨.long, 1, 100, 0⟩⟩)]) "ETHUSDT"
      = some (merge_cache_entry ⟨false, none, some ⟨.long, 1, 100, 0⟩⟩
          ⟨"ETHUSDT", some ⟨.long, 1, 100, 0⟩⟩) := by
  have h := submission_failure_isolated ⟨"BTCUSDT", none⟩ (1/10) 1000
    ⟨1/1000, 1/500, none, 5, 1/10⟩ ⟨"1000", "1000"⟩
    ⟨.buy, "signal", .high, 1/2000⟩ 100 "rejected" 0 none none (1/20)
    (by simp)
    (by
      norm_num [adjust_trade_quantity, final_qty, initial_qty, clamp_above,
        raise_to_min_qty, cap_max_qty, raise_to_min_notional,
        recap_effective_max, quantize_down, quantize_up, effective_max_limit,
        f64_epsilon, quantize_price, round_half_away])
  exact ⟨h.1, h.2 [] "BTCUSDT" "ETHUSDT" ⟨false, none, some ⟨.long, 1, 100, 0⟩⟩
    ⟨"ETHUSDT", some ⟨.long, 1, 100, 0⟩⟩ (by decide)⟩

/-- C9: a position returned by `get_position` has amount at least the
`0.0001` flatness epsilon and is built (with the absolute amount) from a
kept record whose absolute amount is maximal among the kept records for
that symbol; if every record for the symbol is below the epsilon, the
result is `none` (flat), never a microscopic open position. -/
theorem get_position_spec (symbol : String) (ps : List PositionRisk) :
    (∀ p : Position, get_position symbol ps = some p →
      1/10000 ≤ p.amount ∧
      (∃ r ∈ ps, r.symbol = symbol ∧ 1/10000 ≤ |r.positionAmt| ∧
        p = position_of_risk r) ∧
      (∀ r ∈ ps, r.symbol = symbol → 1/10000 ≤ |r.positionAmt| →
        |r.positionAmt| ≤ p.amount)) ∧
    ((∀ r ∈ ps, r.symbol = symbol → |r.positionAmt| < 1/10000) →
      get_position symbol ps = none) := by
  constructor
  · intro p h
    obtain ⟨h1, h2, _⟩ := foldl_consider_spec symbol ps none p h
    rcases h1 with h1 | ⟨r, hr, ⟨hks, hka⟩, hp⟩
    · exact absurd h1 (by simp)
    · refine ⟨?_, ⟨r, hr, hks, not_lt.mp hka, hp⟩, ?_⟩
      · rw [hp]
        simpa [position_of_risk] using not_lt.mp hka
      · intro r' hr' hs' ha'
        exact h2 r' hr' ⟨hs', not_lt.mpr ha'⟩
  · intro hall
    exact foldl_consider_of_none_kept symbol ps
      (fun r hr hk => hk.2 (hall r hr hk.1)) none

/-- Witness for C9: a kept record produces its absolute-amount position;
a list whose only record for the symbol is microscopic produces `none`. -/
theorem get_position_spec_witness :
    (1/10000 : ℚ) ≤ (position_of_risk ⟨"BTCUSDT", "LONG", 1/2, 100, 0⟩).amount ∧
    (∃ r ∈ [(⟨"BTCUSDT", "LONG", 1/2, 100, 0⟩ : PositionRisk)],
      r.symbol = "BTCUSDT" ∧ (1/10000 : ℚ) ≤ |r.positionAmt| ∧
      position_of_risk ⟨"BTCUSDT", "LONG", 1/2, 100, 0⟩ = position_of_risk r) ∧
    get_position "BTCUSDT" [⟨"BTCUSDT", "LONG", 1/100000, 100, 0⟩] = none := by
  have habs2 : |(1/2 : ℚ)| = 1/2 := abs_of_nonneg (by norm_num)
  have habs5 : |(1/100000 : ℚ)| = 1/100000 := abs_of_nonneg (by norm_num)
  have h1 := (get_position_spec "BTCUSDT"
    [⟨"BTCUSDT", "LONG", 1/2, 100, 0⟩]).1
    (position_of_risk ⟨"BTCUSDT", "LONG", 1/2, 100, 0⟩)
    (by norm_num [get_position, consider_position, habs2])
  have h2 := (get_position_spec "BTCUSDT"
    [⟨"BTCUSDT", "LONG", 1/100000, 100, 0⟩]).2
    (by
      intro r hr hs
      simp only [List.mem_singleton] at hr
      subst hr
      norm_num [habs5])
  exact ⟨h1.1, h1.2.1, h2⟩

/-- C10: on a Buy signal while holding a Long position (and a Sell signal
while holding a Short position), `execute_decision` submits exactly one
add-on order when the current amount plus the trade amount stays within
`max_position`, and otherwise submits no order and returns a Hold result
with amount 0. -/
theorem execute_decision_addon_guard (symbol : String)
    (decision : TradingDecision) (pos : Position)
    (price amt maxp : ℚ) (ts : ℤ) (oi : Order → String) :
    (decision.signal = .buy → pos.side = .long →
      (pos.amount + amt ≤ maxp →
        (execute_decision symbol decision (some pos) price amt maxp ts oi).2
          = [open_long amt] ∧
        (execute_decision symbol decision (some pos) price amt maxp ts oi).1.action
          = .openLong ∧
        (execute_decision symbol decision (some pos) price amt maxp ts oi).1.amount
          = amt) ∧
      (maxp < pos.amount + amt →
        (execute_decision symbol decision (some pos) price amt maxp ts oi).2
          = [] ∧
        (execute_decision symbol decision (some pos) price amt maxp ts oi).1.action
          = .hold ∧
        (execute_decision symbol decision (some pos) price amt maxp ts oi).1.amount
          = 0)) ∧
    (decision.signal = .sell → pos.side = .short →
      (pos.amount + amt ≤ maxp →
        (execute_decision symbol decision (some pos) price amt maxp ts oi).2
          = [open_short amt] ∧
        (execute_decision symbol decision (some pos) price amt maxp ts oi).1.action
          = .openShort ∧
        (execute_decision symbol decision (some pos) price amt maxp ts oi).1.amount
          = amt) ∧
      (maxp < pos.amount + amt →
        (execute_decision symbol decision (some pos) price amt maxp ts oi).2
          = [] ∧
        (execute_decision symbol decision (some pos) price amt maxp ts oi).1.action
          = .hold ∧
        (execute_decision symbol decision (some pos) price amt maxp ts oi).1.amount
          = 0)) := by
  constructor
  · intro hsig hside
    constructor
    · intro hle
      simp [execute_decision, hsig, hside, not_lt.mpr hle]
    · intro hgt
      simp [execute_decision, hsig, hside, hgt]
  · intro hsig hside
    constructor
    · intro hle
      simp [execute_decision, hsig, hside, not_lt.mpr hle]
    · intro hgt
      simp [execute_decision, hsig, hside, hgt]

/-- Witness for C10: a concrete Buy-on-Long add-on within the cap, and the
same position with a cap it would exceed. -/
theorem execute_decision_addon_guard_witness :
    ((execute_decision "BTCUSDT" ⟨.buy, "signal", .high, 1⟩
        (some ⟨.long, 1, 100, 0⟩) 100 1 3 0 (fun _ => "ok")).2
      = [open_long 1] ∧
     (execute_decision "BTCUSDT" ⟨.buy, "signal", .high, 1⟩
        (some ⟨.long, 1, 100, 0⟩) 100 1 3 0 (fun _ => "ok")).1.action
      = .openLong ∧
     (execute_decision "BTCUSDT" ⟨.buy, "signal", .high, 1⟩
        (some ⟨.long, 1, 100, 0⟩) 100 1 3 0 (fun _ => "ok")).1.amount = 1) ∧
    ((execute_decision "BTCUSDT" ⟨.buy, "signal", .high, 1⟩
        (some ⟨.long, 1, 100, 0⟩) 100 1 (3/2) 0 (fun _ => "ok")).2 = [] ∧
     (execute_decision "BTCUSDT" ⟨.buy, "signal", .high, 1⟩
        (some ⟨.long, 1, 100, 0⟩) 100 1 (3/2) 0 (fun _ => "ok")).1.action
      = .hold ∧
     (execute_decision "BTCUSDT" ⟨.buy, "signal", .high, 1⟩
        (some ⟨.long, 1, 100, 0⟩) 100 1 (3/2) 0 (fun _ => "ok")).1.amount
      = 0) :=
  ⟨((execute_decision_addon_guard "BTCUSDT" ⟨.buy, "signal", .high, 1⟩
      ⟨.long, 1, 100, 0⟩ 100 1 3 0 (fun _ => "ok")).1 rfl rfl).1 (by norm_num),
   ((execute_decision_addon_guard "BTCUSDT" ⟨.buy, "signal", .high, 1⟩
      ⟨.long, 1, 100, 0⟩ 100 1 (3/2) 0 (fun _ => "ok")).1 rfl rfl).2
      (by norm_num)⟩

end Trade
